import Mathlib

/-!
Verification development for the `gcomb` repository: a discriminated-union
("algebraic") data type with recursive alternatives (`algebraic.hpp`) and a
lazy pull-based generator library with combinators (`generator.hpp`,
`combinators.hpp`, `algebraic_generator.hpp`).

The C++ source is shallowly embedded as follows.

* Member types of an `algebraic<T1, ..., Tn>` instantiation are represented
  by a code universe `TyCode` with a denotation function `TyDenote`, so that
  the source's type-level recursion `detail::type_to_index` becomes a
  computable function on codes.
* `algebraic<T1, ..., Tn>` becomes `Algebraic codes`: a discriminant index
  paired with a value of the denoted type at that index (the source keeps the
  value in untyped overlapping storage and trusts the discriminant; the typed
  model stores the live alternative directly).
* `recursive<T>` (an owning heap indirection through a `std::unique_ptr`) is
  modelled by the pointer value it owns: `RBox` holds the address of the
  pointee, and the standalone `RecBox` model additionally carries the
  possibly-null state of the `unique_ptr` for the move/destruction analysis.
* `generator<T>` (a closure of type `T()` with captured mutable state)
  becomes `Gen σ T`: an explicit state of type `σ` together with a step
  function `σ → T × σ`.  A pull returns the produced value and the advanced
  state.  Copying a generator copies its state, exactly as copying the C++
  closure copies the captured data.
* Combinators capture their argument generators by value in the source
  (`[g,gs...]`, `[t,u,branch]`, `[f,g]`, `[g,n]`); correspondingly, the
  embedded combinators take `Gen` values and embed them into the combinator's
  own state.
* Function-local `static` state inside a combinator's lambda (the latch of
  `seq`, the tuple cell of the variadic `pure`) is shared by every generator
  instance of the same template instantiation.  This is modelled explicitly
  by threading one shared cell across several instances (`SeqShared`,
  `PurePair`).
-/

/-! ## Type codes and their denotations -/

/-- Model of the empty struct `gcomb::bot_t`, the sentinel "no more values"
alternative used by `bound`. -/
inductive BotT : Type where
  | mk : BotT
deriving DecidableEq, Repr

/-- Model of `algebraic::recursive<T>` as it sits inside an `algebraic`
value: the address owned by its `std::unique_ptr<T> data` member. -/
structure RBox : Type where
  addr : Nat
deriving DecidableEq, Repr

/-- Codes for the C++ types that may appear as members of an
`algebraic<T1, ..., Tn>` instantiation in this development.  `box c` is the
code of `recursive<denotation of c>`. -/
inductive TyCode : Type where
  | int : TyCode
  | long : TyCode
  | char : TyCode
  | bool : TyCode
  | unit : TyCode
  | bot : TyCode
  | pair : TyCode → TyCode → TyCode
  | box : TyCode → TyCode
deriving DecidableEq, Repr

/-- Denotation of a type code.  `int` and `long` are modelled as
mathematical integers (they stay distinct codes, as the member types of an
`algebraic` are distinct C++ types). -/
def TyDenote : TyCode → Type
  | .int => Int
  | .long => Int
  | .char => Char
  | .bool => Bool
  | .unit => Unit
  | .bot => BotT
  | .pair a b => TyDenote a × TyDenote b
  | .box _ => RBox

/-- Model of `sizeof` for the modelled types.  Mirrors the C++ guarantee that every
complete object type has size at least one byte; the exact values follow a
common LP64 layout, but only positivity is used. -/
def cppSizeof : TyCode → Nat
  | .int => 4
  | .long => 8
  | .char => 1
  | .bool => 1
  | .unit => 1
  | .bot => 1
  | .pair a b => cppSizeof a + cppSizeof b
  | .box _ => 8

theorem cppSizeof_pos (t : TyCode) : 0 < cppSizeof t := by
  induction t with
  | pair a b iha ihb => simpa [cppSizeof] using Or.inl iha
  | _ => simp [cppSizeof]

/-! ## `detail::type_to_index` -/

/-- Source `detail::type_to_index<U, T1, ..., Tn>`: index of the first occurrence of
`U` in the member list.  The specialization `type_to_index<U, U, Ts...>`
yields `0`; `type_to_index<U, T, Ts...>` yields one plus the recursion; the
empty case `type_to_index<U>` hits `static_assert (sizeof(U) == 0, "type not
found")`, which is modelled as `none`. -/
def type_to_index (u : TyCode) : List TyCode → Option Nat
  | [] => none
  | t :: ts => if u = t then some 0 else (type_to_index u ts).map Nat.succ

theorem type_to_index_lt_length (u : TyCode) :
    ∀ (codes : List TyCode) (i : Nat),
      type_to_index u codes = some i → i < codes.length := by
  intro codes
  induction codes with
  | nil => intro i h; simp [type_to_index] at h
  | cons t ts ih =>
      intro i h
      by_cases hu : u = t
      · simp [type_to_index, hu] at h
        simp [List.length_cons]
        omega
      · simp [type_to_index, hu] at h
        obtain ⟨j, hj, rfl⟩ := h
        have := ih j hj
        simpa using Nat.succ_lt_succ this

theorem type_to_index_get (u : TyCode) :
    ∀ (codes : List TyCode) (i : Nat) (h : type_to_index u codes = some i),
      codes.get ⟨i, type_to_index_lt_length u codes i h⟩ = u := by
  intro codes
  induction codes with
  | nil => intro i h; simp [type_to_index] at h
  | cons t ts ih =>
      intro i h
      by_cases hu : u = t
      · simp [type_to_index, hu] at h
        subst h
        simpa using hu.symm
      · simp only [type_to_index, hu, if_false, Option.map_eq_some'] at h
        obtain ⟨j, hj, rfl⟩ := h
        simpa using ih j hj

/-- If `u` occurs at position `i` of a duplicate-free member list, then
`type_to_index` resolves `u` to exactly `i` (first = only occurrence). -/
theorem type_to_index_of_nodup :
    ∀ (codes : List TyCode) (_hnd : codes.Nodup) (i : Fin codes.length),
      type_to_index (codes.get i) codes = some i.val := by
  intro codes
  induction codes with
  | nil => intro _ i; exact absurd i.isLt (by simp)
  | cons t ts ih =>
      intro hnd i
      rcases List.nodup_cons.mp hnd with ⟨hmem, hts⟩
      match i with
      | ⟨0, _⟩ => simp [type_to_index]
      | ⟨j + 1, hj⟩ =>
          have hjlt : j < ts.length := by simpa using Nat.lt_of_succ_lt_succ hj
          have hget : (t :: ts).get ⟨j + 1, hj⟩ = ts.get ⟨j, hjlt⟩ := rfl
          have hne : ts.get ⟨j, hjlt⟩ ≠ t := by
            intro he
            exact hmem (he ▸ List.get_mem ts j hjlt)
          rw [hget]
          simp only [type_to_index, hne, if_false]
          rw [ih hts ⟨j, hjlt⟩]
          rfl

/-! ## The `algebraic` sum type -/

/-- Model of `algebraic::algebraic<T1, ..., Tn>`: the run-time discriminant
`std::size_t const tindex` paired with the live alternative held in
`detail::algebraic_internal_storage` (the model types the storage by the
discriminant instead of keeping raw bytes). -/
structure Algebraic (codes : List TyCode) : Type where
  tindex : Fin codes.length
  stored : TyDenote (codes.get tindex)

/-- Body semantics of the member-type converting constructor
`algebraic(U&&)` (the one guarded by
`static_assert (any_true (is_same<U, Ti>...))`, modelled by the membership
hypothesis): the discriminant is `type_to_index<U, T1..Tn>` and the argument
is placement-new-constructed into the storage. -/
def Algebraic.construct (codes : List TyCode) (u : TyCode) (v : TyDenote u)
    (i : Nat) (hi : type_to_index u codes = some i) : Algebraic codes :=
  ⟨⟨i, type_to_index_lt_length u codes i hi⟩,
   (type_to_index_get u codes i hi).symm ▸ v⟩

/-- Typed accessor `value<U>()`: returns the storage reinterpreted at type
`U`.  The source performs no tag check and mismatched access is undefined
behaviour; the model makes the matching assumption explicit as the
hypothesis `h`. -/
def Algebraic.value {codes : List TyCode} (a : Algebraic codes)
    (u : TyCode) (h : codes.get a.tindex = u) : TyDenote u :=
  h ▸ a.stored

/-- Accessor `type_index ()`: returns the discriminant. -/
def Algebraic.type_index {codes : List TyCode} (a : Algebraic codes) : Nat :=
  a.tindex.val

/-- The guard of the default constructor `algebraic (void)`:
`static_assert (sizeof(T) == 0, "no default construction of algebraic
type")`.  Default construction of `algebraic<T, Ts...>` is accepted exactly
when this proposition holds of the first member type. -/
def default_construction_accepted (t : TyCode) (_ts : List TyCode) : Prop :=
  cppSizeof t = 0

/-- The defaulted copy constructor `algebraic (algebraic const&) = default`:
memberwise copy of the `const` discriminant and of the raw storage bytes.
In the model the stored alternative value (for a `recursive` alternative:
the owned address) is duplicated as-is; no alternative copy constructor is
involved. -/
def Algebraic.copyCtor {codes : List TyCode} (a : Algebraic codes) :
    Algebraic codes :=
  ⟨a.tindex, a.stored⟩

/-- Rendering of claim C6's copy contract on a copy result `b` of source
`a`: the active alternative was copy-constructed into fresh storage, so when
the active alternative is a `recursive` box the copy owns a distinct,
freshly allocated pointee (its address differs from the source's). -/
def copy_deep_fresh {codes : List TyCode} (a b : Algebraic codes) : Prop :=
  b.tindex = a.tindex ∧
  ∀ (c : TyCode) (hb : codes.get b.tindex = TyCode.box c)
    (ha : codes.get a.tindex = TyCode.box c),
    (b.value (TyCode.box c) hb).addr ≠ (a.value (TyCode.box c) ha).addr

/-! ## Generators

A `gcomb::generator<T>` wraps a `std::function<T (void)>` whose closure may
carry mutable captured state.  The embedding makes that state explicit:
`Gen σ T` is the current captured state together with the production step.
A pull (`operator()`) runs the production once, yielding the produced value
and the generator with advanced state. -/

structure Gen (σ : Type) (T : Type) : Type where
  state : σ
  step : σ → T × σ

/-- One pull of a generator: run the production once. -/
def Gen.pull {σ T : Type} (g : Gen σ T) : T × Gen σ T :=
  let r := g.step g.state
  (r.1, ⟨r.2, g.step⟩)

/-- The list of values produced by `n` successive pulls. -/
def Gen.pulls {σ T : Type} (g : Gen σ T) : Nat → List T
  | 0 => []
  | n + 1 =>
      let r := g.pull
      r.1 :: r.2.pulls n

/-- Source `gcomb::pure (T&& t)` (unary): `[t] (void) { return t; }` — a constant
stream with no mutable state. -/
def pureGen {T : Type} (t : T) : Gen Unit T :=
  ⟨(), fun _ => (t, ())⟩

/-- Source `gcomb::count (start, step)`: captures `[start,step] mutable`; each pull
returns the current value of `start` and then advances it by `step`. -/
def countGen (start step : Int) : Gen Int Int :=
  ⟨start, fun s => (s, s + step)⟩

/-- Source `gcomb::prod (start, factor)`: captures `[start,factor] mutable`; each
pull returns the current value and then multiplies it by `factor`. -/
def prodGen (start factor : Int) : Gen Int Int :=
  ⟨start, fun s => (s, s * factor)⟩

/-! ### The variadic `pure (v1, ..., vk)` and its function-local static

The body of the variadic `pure`'s lambda is

    static auto const tup = std::make_tuple (t, ts...);
    return tup;

The `static` cell belongs to the closure *type*, i.e. to the template
instantiation `pure<T, Ts...>`, not to the individual closure object.  It is
initialized on the first call of any generator of that instantiation, from
that generator's captured values, and every later call of every generator of
the instantiation returns the already-initialized tuple.  `PurePair` models
one instantiation (at arity two) with two live generator instances `i1`,
`i2` and the one shared cell. -/

structure PurePair (T1 T2 : Type) : Type where
  cell : Option (T1 × T2)
  i1 : T1 × T2
  i2 : T1 × T2

/-- The lambda body of the variadic `pure`, called with captured values
`captured` and the current contents of the shared static cell. -/
def purePairBody {T1 T2 : Type} (captured : T1 × T2) :
    Option (T1 × T2) → (T1 × T2) × Option (T1 × T2)
  | none => (captured, some captured)
  | some tup => (tup, some tup)

/-- Pull the first `pure (v1, v2)` instance of the instantiation. -/
def PurePair.pull1 {T1 T2 : Type} (w : PurePair T1 T2) :
    (T1 × T2) × PurePair T1 T2 :=
  let r := purePairBody w.i1 w.cell
  (r.1, { w with cell := r.2 })

/-- Pull the second `pure (v1, v2)` instance of the instantiation. -/
def PurePair.pull2 {T1 T2 : Type} (w : PurePair T1 T2) :
    (T1 × T2) × PurePair T1 T2 :=
  let r := purePairBody w.i2 w.cell
  (r.1, { w with cell := r.2 })

/-- A freshly started program holding two generators of one variadic `pure`
instantiation: the static cell is not yet initialized. -/
def PurePair.start {T1 T2 : Type} (a b : T1 × T2) : PurePair T1 T2 :=
  ⟨none, a, b⟩

/-! ## Combinators

All combinators capture their argument generators by value, so the embedded
state of a combinator contains copies of the input generators. -/

/-- Model of `algebraic::algebraic<T, U>` as it is produced by the
combinators, for pairwise-distinct member types `T`, `U`: the left summand
is the `T`-alternative (discriminant `0`, from
`type_to_index<T, T, U> = 0`), the right summand the `U`-alternative
(discriminant `1`). -/
@[reducible] def Alg2 (T U : Type) : Type := T ⊕ U

/-- Construction of `Alg2` from a `T` value (the converting constructor
applied to a value of the first member type). -/
def Alg2.fst {T U : Type} (v : T) : Alg2 T U := Sum.inl v

/-- Construction of `Alg2` from a `U` value (the converting constructor
applied to a value of the second member type). -/
def Alg2.snd {T U : Type} (v : U) : Alg2 T U := Sum.inr v

/-- `type_index()` of a combinator-produced `algebraic<T, U>` value. -/
def Alg2.type_index {T U : Type} : Alg2 T U → Nat
  | Sum.inl _ => 0
  | Sum.inr _ => 1

/-- Source `gcomb::tie (g, gs...)` at arity two: captures `[g,gs...]` by value and
on every pull pulls each captured generator once, packaging the results as a
tuple in declared order. -/
def tie2 {σ τ T U : Type} (g1 : Gen σ T) (g2 : Gen τ U) :
    Gen (Gen σ T × Gen τ U) (T × U) :=
  ⟨(g1, g2), fun s =>
    let r1 := s.1.pull
    let r2 := s.2.pull
    ((r1.1, r2.1), (r1.2, r2.2))⟩

/-- The body of `gcomb::seq`'s lambda, acting on the latch cell
(`static bool ts`) together with the captured generator copies:

    if (ts) {
        auto const val = t ();
        if (not branch (val)) return val;
        else                  ts = false;
    }
    return u ();
-/
def seqBody {σ τ T U : Type} (branch : T → Bool) :
    Bool × Gen σ T × Gen τ U → Alg2 T U × (Bool × Gen σ T × Gen τ U)
  | (ts, tg, ug) =>
    if ts then
      let r := tg.pull
      if ¬ branch r.1 then (Alg2.fst r.1, (ts, r.2, ug))
      else
        let ru := ug.pull
        (Alg2.snd ru.1, (false, r.2, ru.2))
    else
      let ru := ug.pull
      (Alg2.snd ru.1, (ts, tg, ru.2))

/-- Source `gcomb::seq (t, u, branch)` as a single generator instance: the latch
starts untripped (`static bool ts = true;` runs on the first pull, before
the latch is ever read).  For a lone instance of the instantiation the
function-local static latch is observationally per-instance, so it is
threaded here as part of the generator state; the cross-instance sharing of
the latch is modelled separately by `SeqShared`. -/
def seqGen {σ τ T U : Type} (t : Gen σ T) (u : Gen τ U) (branch : T → Bool) :
    Gen (Bool × Gen σ T × Gen τ U) (Alg2 T U) :=
  ⟨(true, t, u), seqBody branch⟩

/-- Two generator instances produced by two calls of `seq` with identical
type arguments `T, U, Branch`: each instance owns copies of its `t` and `u`,
but the latch (`static bool ts`) belongs to the template instantiation and
is shared by both. -/
structure SeqShared (σ τ T U : Type) : Type where
  latch : Bool
  t1 : Gen σ T
  u1 : Gen τ U
  t2 : Gen σ T
  u2 : Gen τ U

/-- A freshly started program holding two `seq` generators of one
instantiation: the shared latch starts untripped. -/
def SeqShared.start {σ τ T U : Type} (t1 : Gen σ T) (u1 : Gen τ U)
    (t2 : Gen σ T) (u2 : Gen τ U) : SeqShared σ τ T U :=
  ⟨true, t1, u1, t2, u2⟩

/-- Pull the first `seq` instance: runs `seqBody` on the shared latch and
the first instance's captured generators. -/
def SeqShared.pull1 {σ τ T U : Type} (branch : T → Bool)
    (w : SeqShared σ τ T U) : Alg2 T U × SeqShared σ τ T U :=
  let r := seqBody branch (w.latch, w.t1, w.u1)
  (r.1, { w with latch := r.2.1, t1 := r.2.2.1, u1 := r.2.2.2 })

/-- Pull the second `seq` instance: runs `seqBody` on the shared latch and
the second instance's captured generators. -/
def SeqShared.pull2 {σ τ T U : Type} (branch : T → Bool)
    (w : SeqShared σ τ T U) : Alg2 T U × SeqShared σ τ T U :=
  let r := seqBody branch (w.latch, w.t2, w.u2)
  (r.1, { w with latch := r.2.1, t2 := r.2.2.1, u2 := r.2.2.2 })

/-- Source `gcomb::braid (t, u, branch)` (the two-generator merge form): captures
`[t,u,branch]` by value; every pull unconditionally pulls both generators
once and returns `branch (t_value, u_value)`. -/
def braid2 {σ τ T U A : Type} (t : Gen σ T) (u : Gen τ U)
    (branch : T → U → A) : Gen (Gen σ T × Gen τ U) A :=
  ⟨(t, u), fun s =>
    let r1 := s.1.pull
    let r2 := s.2.pull
    (branch r1.1 r2.1, (r1.2, r2.2))⟩

/-- Source `gcomb::bind (f, g)` (direct form, chosen when `f` is callable on `T`):
captures `[f,g]` by value; each pull is `g (f)`, i.e. one pull of `g`
post-processed by `f`. -/
def bindG {σ T U : Type} (f : T → U) (g : Gen σ T) : Gen (Gen σ T) U :=
  ⟨g, fun s =>
    let r := s.pull
    (f r.1, r.2)⟩

/-- Source `gcomb::bind (f, g)` (tuple-unpacking fallback at arity two, chosen when
`g` yields a tuple and `f` is callable on the unpacked elements): wraps `f`
in `detail::call` spreading the tuple and defers to a pull of `g`. -/
def bindTup2 {σ T U V : Type} (f : T → U → V) (g : Gen σ (T × U)) :
    Gen (Gen σ (T × U)) V :=
  bindG (fun p => f p.1 p.2) g

/-- Source `gcomb::bound (g, n)`: captures `[g,n] mutable`; the lambda body is
`return n ? (--n, A (g())) : A (bot_t{});` over
`A = algebraic::algebraic<T, bot_t>`, so each instance carries its own
remaining-count `n` alongside its copy of `g`. -/
def boundGen {σ T : Type} (g : Gen σ T) (n : Nat) :
    Gen (Gen σ T × Nat) (Alg2 T BotT) :=
  ⟨(g, n), fun s =>
    match s.2 with
    | 0 => (Alg2.snd BotT.mk, (s.1, 0))
    | m + 1 =>
        let r := s.1.pull
        (Alg2.fst r.1, (r.2, m))⟩

/-- Running `n` pulls, returning both the produced values and the generator
left behind. -/
def Gen.run {σ T : Type} (g : Gen σ T) : Nat → List T × Gen σ T
  | 0 => ([], g)
  | n + 1 =>
      let r := g.pull
      let rest := r.2.run n
      (r.1 :: rest.1, rest.2)

/-! ## The standalone `recursive<T>` box (move / destruction analysis)

For claim C7 the box is modelled by the state of its `std::unique_ptr<T>
data` member: `none` is the null pointer, `some a` ownership of the pointee
at address `a`. -/

structure RecBox : Type where
  data : Option Nat
deriving DecidableEq, Repr

/-- The move constructor
`recursive (recursive<T> && r) noexcept : data (std::move (r.ptr()))`:
the new box's `unique_ptr` is constructed from the raw pointer `r.ptr()`;
nothing releases `r.data`.  Result: (the new box, the source box after the
move). -/
def RecBox.moveCtor (r : RecBox) : RecBox × RecBox :=
  (⟨r.data⟩, r)

/-- The defaulted destructor `~recursive (void) noexcept = default`: the
`unique_ptr` member frees its pointee exactly when it is non-null.  Returns
the list of addresses freed. -/
def RecBox.dtorFrees (r : RecBox) : List Nat :=
  r.data.toList

/-! ## Worlds for the frame / capture-by-value analysis (claim C10) -/

/-- A caller's world: the caller's own generator `orig` next to a
combinator-built generator `comb`.  `build` models combinator construction:
every combinator captures its generator arguments by value
(`[g,gs...]`, `[t,u,branch]`, `[f,g]`, `[g,n]`), so `make` receives a copy
of `orig` and the caller's generator is left in place. -/
structure CapturedWorld (σ T κ A : Type) : Type where
  orig : Gen σ T
  comb : Gen κ A

/-- Build a combinator over (a by-value copy of) the caller's generator. -/
def CapturedWorld.build {σ T κ A : Type} (g : Gen σ T)
    (make : Gen σ T → Gen κ A) : CapturedWorld σ T κ A :=
  ⟨g, make g⟩

/-- Pull the combinator-built generator once: only its own captured state
advances. -/
def CapturedWorld.pullComb {σ T κ A : Type} (w : CapturedWorld σ T κ A) :
    A × CapturedWorld σ T κ A :=
  let r := w.comb.pull
  (r.1, ⟨w.orig, r.2⟩)

/-- Pull the combinator-built generator `n` times. -/
def CapturedWorld.pullCombN {σ T κ A : Type} (w : CapturedWorld σ T κ A) :
    Nat → CapturedWorld σ T κ A
  | 0 => w
  | n + 1 => (w.pullComb).2.pullCombN n

/-! ## Supporting lemmas -/

/-- Transporting a denoted value along a code equality and back is the
identity. -/
theorem tydenote_transport_roundtrip (a b : TyCode) (h : a = b)
    (v : TyDenote b) : h ▸ (h.symm ▸ v) = v := by
  cases h
  rfl

/-- Once its latch is tripped, a `seq` generator instance produces exactly
the pulls of its captured `u` copy (as `U`-alternatives), never touches its
captured `t` copy, and the latch stays tripped. -/
theorem seq_tripped_run {σ τ T U : Type} (branch : T → Bool)
    (tg : Gen σ T) (ug : Gen τ U) (n : Nat) :
    ((⟨(false, tg, ug), seqBody branch⟩ : Gen _ (Alg2 T U)).run n).1
        = (ug.pulls n).map Alg2.snd
    ∧ ((⟨(false, tg, ug), seqBody branch⟩ : Gen _ (Alg2 T U)).run n).2.state.2.1
        = tg
    ∧ ((⟨(false, tg, ug), seqBody branch⟩ : Gen _ (Alg2 T U)).run n).2.state.1
        = false := by
  induction n generalizing ug with
  | zero => exact ⟨rfl, rfl, rfl⟩
  | succ n ih =>
      obtain ⟨h1, h2, h3⟩ := ih ((ug.pull).2)
      refine ⟨?_, ?_, ?_⟩
      · simpa [Gen.run, Gen.pulls, Gen.pull, seqBody] using h1
      · simpa [Gen.run, Gen.pull, seqBody] using h2
      · simpa [Gen.run, Gen.pull, seqBody] using h3

/-- Pulls on a combinator-built generator never change the caller's
generator. -/
theorem pullCombN_orig {σ T κ A : Type} (w : CapturedWorld σ T κ A)
    (n : Nat) : (w.pullCombN n).orig = w.orig := by
  induction n generalizing w with
  | zero => rfl
  | succ n ih =>
      have h := ih (w.pullComb).2
      simpa [CapturedWorld.pullCombN, CapturedWorld.pullComb] using h

/-! ## Claim theorems -/

/-- Claim C1: constructing an `algebraic` over pairwise-distinct member
types from a value `v` of the `i`-th member type yields discriminant
`type_index () = i`, and the typed accessor `value<Ti> ()` returns `v`.
(Proved of the member-type converting constructor's body semantics; the
overload set containing it is separately found defective, see the results
for this claim.) -/
theorem construct_type_index_value (codes : List TyCode)
    (hnd : codes.Nodup) (i : Fin codes.length)
    (v : TyDenote (codes.get i)) :
    ∃ (h : codes.get (Algebraic.construct codes (codes.get i) v i.val
            (type_to_index_of_nodup codes hnd i)).tindex = codes.get i),
      (Algebraic.construct codes (codes.get i) v i.val
          (type_to_index_of_nodup codes hnd i)).type_index = i.val
      ∧ (Algebraic.construct codes (codes.get i) v i.val
          (type_to_index_of_nodup codes hnd i)).value (codes.get i) h = v := by
  refine ⟨type_to_index_get (codes.get i) codes i.val
    (type_to_index_of_nodup codes hnd i), rfl, ?_⟩
  exact tydenote_transport_roundtrip _ _
    (type_to_index_get (codes.get i) codes i.val
      (type_to_index_of_nodup codes hnd i)) v

/-- Witness for C1 at `algebraic<int, char>` constructed from `5 : int`. -/
theorem construct_type_index_value_witness :
    ([TyCode.int, TyCode.char] : List TyCode).Nodup
    ∧ ∃ (h : [TyCode.int, TyCode.char].get
            (Algebraic.construct [TyCode.int, TyCode.char]
              ([TyCode.int, TyCode.char].get ⟨0, by decide⟩) (5 : Int) 0
              (type_to_index_of_nodup [TyCode.int, TyCode.char] (by decide)
                ⟨0, by decide⟩)).tindex
          = [TyCode.int, TyCode.char].get ⟨0, by decide⟩),
        (Algebraic.construct [TyCode.int, TyCode.char]
            ([TyCode.int, TyCode.char].get ⟨0, by decide⟩) (5 : Int) 0
            (type_to_index_of_nodup [TyCode.int, TyCode.char] (by decide)
              ⟨0, by decide⟩)).type_index = 0
        ∧ (Algebraic.construct [TyCode.int, TyCode.char]
            ([TyCode.int, TyCode.char].get ⟨0, by decide⟩) (5 : Int) 0
            (type_to_index_of_nodup [TyCode.int, TyCode.char] (by decide)
              ⟨0, by decide⟩)).value
            ([TyCode.int, TyCode.char].get ⟨0, by decide⟩) h = (5 : Int) :=
  ⟨by decide,
   construct_type_index_value [TyCode.int, TyCode.char] (by decide)
     ⟨0, by decide⟩ (5 : Int)⟩

/-- Claim C2: default construction of an `algebraic` is rejected at compile
time — its guard `static_assert (sizeof (T) == 0)` is unsatisfiable because
every type has positive size — and no representable `Algebraic` value lacks
a live alternative: every value is some alternative index together with a
value of that alternative's type. -/
theorem no_default_construction_and_never_empty :
    (∀ (t : TyCode) (ts : List TyCode),
        ¬ default_construction_accepted t ts)
    ∧ (∀ (codes : List TyCode) (a : Algebraic codes),
        ∃ (i : Fin codes.length) (v : TyDenote (codes.get i)),
          a = ⟨i, v⟩) := by
  constructor
  · intro t ts h
    have := cppSizeof_pos t
    have hz : cppSizeof t = 0 := h
    omega
  · intro codes a
    exact ⟨a.tindex, a.stored, rfl⟩

/-- Claim C3: behaviour of a `seq (t, u, branch)` generator instance.  A
fresh instance starts with the latch untripped and copies of `t` and `u`.
While untripped, each pull pulls `t` once and evaluates `branch` on the
pulled value: if false, that value is returned as the `T`-alternative and
the latch stays untripped; on the first true, the latch trips, the
triggering value is discarded and that pull — and, by the third conjunct,
every subsequent pull — returns a pull of `u` as the `U`-alternative, with
the captured `t` never pulled again.  In particular,
`seq (count (0,1), pure (-1), x => x >= 2)` pulled 5 times yields
`[0, 1, -1, -1, -1]`. -/
theorem seq_switch_semantics {σ τ T U : Type}
    (t : Gen σ T) (u : Gen τ U) (branch : T → Bool) :
    (seqGen t u branch).state = (true, t, u)
    ∧ (∀ (tg : Gen σ T) (ug : Gen τ U),
        seqBody branch (true, tg, ug)
          = if branch (tg.pull).1
            then (Alg2.snd (ug.pull).1, (false, (tg.pull).2, (ug.pull).2))
            else (Alg2.fst (tg.pull).1, (true, (tg.pull).2, ug)))
    ∧ (∀ (tg : Gen σ T) (ug : Gen τ U) (n : Nat),
        ((⟨(false, tg, ug), seqBody branch⟩ : Gen _ (Alg2 T U)).run n).1
            = (ug.pulls n).map Alg2.snd
        ∧ ((⟨(false, tg, ug), seqBody branch⟩
              : Gen _ (Alg2 T U)).run n).2.state.2.1 = tg
        ∧ ((⟨(false, tg, ug), seqBody branch⟩
              : Gen _ (Alg2 T U)).run n).2.state.1 = false)
    ∧ (seqGen (countGen 0 1) (pureGen (-1 : Int))
          (fun x => decide (x ≥ 2))).pulls 5
        = [Alg2.fst 0, Alg2.fst 1, Alg2.snd (-1), Alg2.snd (-1),
           Alg2.snd (-1)] := by
  refine ⟨rfl, ?_, ?_, ?_⟩
  · intro tg ug
    by_cases hb : branch (tg.pull).1
    · simp [seqBody, hb]
    · simp [seqBody, hb]
  · intro tg ug n
    exact seq_tripped_run branch tg ug n
  · decide

/-- The branch predicate `x => x >= 2` of the shared-latch demonstration. -/
def seqSharedDemoBranch : Int → Bool := fun x => decide (x ≥ 2)

/-- Two `seq (count (0,1), pure (-1), x => x >= 2)` generators of one
instantiation, freshly constructed: shared latch untripped. -/
def seqSharedDemoStart : SeqShared Int Unit Int Int :=
  SeqShared.start (countGen 0 1) (pureGen (-1 : Int))
    (countGen 0 1) (pureGen (-1 : Int))

/-- The same two generators after the first instance has been pulled three
times (its third pull trips the shared latch). -/
def seqSharedDemoTripped : SeqShared Int Unit Int Int :=
  (SeqShared.pull1 seqSharedDemoBranch
    ((SeqShared.pull1 seqSharedDemoBranch
      ((SeqShared.pull1 seqSharedDemoBranch seqSharedDemoStart).2)).2)).2

/-- Claim C4 (evaluation of the shared function-local static latch): two
`seq` generators of the same instantiation — both built from fresh
`count (0,1)` and `pure (-1)` with branch `x >= 2` — share one latch.
Pulling the first instance three times trips the latch; the first pull of
the second, logically distinct instance then immediately returns a pull of
its `u` (the `U`-alternative `-1`), whereas an instance with its own
untripped latch returns its first `t` value `0` as the `T`-alternative. -/
theorem seq_latch_shared_eval :
    (SeqShared.pull2 seqSharedDemoBranch seqSharedDemoTripped).1
      = Alg2.snd (-1)
    ∧ ((seqGen (countGen 0 1) (pureGen (-1 : Int))
          seqSharedDemoBranch).pull).1 = Alg2.fst 0
    ∧ (Alg2.snd (-1) : Alg2 Int Int) ≠ Alg2.fst 0 := by
  refine ⟨by decide, by decide, by decide⟩

/-- Claim C5: `bound (g, n)` is the claimed state machine.  A fresh
instance carries its own copy of `g` and its own remaining-count `n`; while
the count is positive a pull pulls `g` exactly once, decrements, and
returns the pulled value as the `T`-alternative; once the count is `0`,
every pull forever returns the `Bottom` alternative without pulling `g`
(the captured copy of `g` is left untouched), and exhaustion is observed
through `type_index` (`0` for the `T`-alternative, `1` for `Bottom`), not
through any failure channel.  In particular `bound (count (0,1), 3)` pulled
5 times yields `[Alg(0), Alg(1), Alg(2), Alg(Bottom), Alg(Bottom)]`. -/
theorem bound_state_machine {σ T : Type} (g : Gen σ T) (n : Nat) :
    (boundGen g n).state = (g, n)
    ∧ (∀ (gs : Gen σ T) (m : Nat),
        (boundGen g n).step (gs, m + 1)
          = (Alg2.fst (gs.pull).1, ((gs.pull).2, m)))
    ∧ (∀ (gs : Gen σ T) (k : Nat),
        ((⟨(gs, 0), (boundGen g n).step⟩
            : Gen _ (Alg2 T BotT)).run k).1
            = List.replicate k (Alg2.snd BotT.mk)
        ∧ ((⟨(gs, 0), (boundGen g n).step⟩
            : Gen _ (Alg2 T BotT)).run k).2.state = (gs, 0))
    ∧ (Alg2.type_index (Alg2.snd BotT.mk : Alg2 T BotT) = 1
        ∧ ∀ (v : T), Alg2.type_index (Alg2.fst v : Alg2 T BotT) = 0)
    ∧ (boundGen (countGen 0 1) 3).pulls 5
        = [Alg2.fst 0, Alg2.fst 1, Alg2.fst 2, Alg2.snd BotT.mk,
           Alg2.snd BotT.mk] := by
  refine ⟨rfl, fun gs m => rfl, ?_, ⟨rfl, fun v => rfl⟩, by decide⟩
  intro gs k
  induction k with
  | zero => exact ⟨rfl, rfl⟩
  | succ k ih =>
      obtain ⟨h1, h2⟩ := ih
      constructor
      · simpa [Gen.run, Gen.pull, boundGen, List.replicate] using h1
      · simpa [Gen.run, Gen.pull, boundGen] using h2

/-- A concrete `algebraic<recursive<int>, int>` value whose active
alternative is the `recursive` box owning the pointee at address 7. -/
def boxedSample : Algebraic [TyCode.box TyCode.int, TyCode.int] :=
  ⟨⟨0, by decide⟩, (⟨7⟩ : RBox)⟩

/-- Counterexample to claim C6: the defaulted copy constructor of
`algebraic` does not copy-construct the active alternative into fresh
storage.  For the concrete value `boxedSample` (active alternative: a
`recursive` box owning address 7), the copy produced by
`algebraic (algebraic const&) = default` holds the very same owned address,
so the `RecursiveBox` pointee is shared rather than deep-copied. -/
theorem copy_not_deep_counterexample :
    ¬ copy_deep_fresh boxedSample (Algebraic.copyCtor boxedSample) := by
  intro h
  exact h.2 TyCode.int rfl rfl rfl

/-- Amended claim C6: copy construction of an `algebraic` is the defaulted
memberwise copy — the discriminant is copied verbatim and the storage bytes
are duplicated as-is, so the copy equals the source; in particular, when
the active alternative is a `recursive` box, the copy holds the same owned
address as the source (the pointee is shared, not deep-copied, and no
alternative copy constructor runs). -/
theorem copy_bitwise_shares_box {codes : List TyCode}
    (a : Algebraic codes) (c : TyCode)
    (h : codes.get a.tindex = TyCode.box c) :
    (Algebraic.copyCtor a).tindex = a.tindex
    ∧ ((Algebraic.copyCtor a).value (TyCode.box c) h).addr
        = (a.value (TyCode.box c) h).addr
    ∧ Algebraic.copyCtor a = a :=
  ⟨rfl, rfl, rfl⟩

/-- Witness for the amended C6 at `boxedSample`. -/
theorem copy_bitwise_shares_box_witness :
    ([TyCode.box TyCode.int, TyCode.int].get boxedSample.tindex
        = TyCode.box TyCode.int)
    ∧ ((Algebraic.copyCtor boxedSample).tindex = boxedSample.tindex
        ∧ ((Algebraic.copyCtor boxedSample).value (TyCode.box TyCode.int)
              rfl).addr
            = (boxedSample.value (TyCode.box TyCode.int) rfl).addr
        ∧ Algebraic.copyCtor boxedSample = boxedSample) :=
  ⟨rfl, copy_bitwise_shares_box boxedSample TyCode.int rfl⟩

/-- Claim C7 (evaluation of the move/destruction semantics of
`recursive<T>` at a concrete input): moving from a box that owns address 7
produces a new box owning address 7 while the source still owns address 7
— ownership is duplicated, not transferred — and running both defaulted
destructors frees address 7 twice, not exactly once. -/
theorem recursive_move_double_free :
    (RecBox.moveCtor ⟨some 7⟩).1.data = some 7
    ∧ (RecBox.moveCtor ⟨some 7⟩).2.data = some 7
    ∧ RecBox.dtorFrees (RecBox.moveCtor ⟨some 7⟩).1
        ++ RecBox.dtorFrees (RecBox.moveCtor ⟨some 7⟩).2 = [7, 7]
    ∧ (RecBox.dtorFrees (RecBox.moveCtor ⟨some 7⟩).1
        ++ RecBox.dtorFrees (RecBox.moveCtor ⟨some 7⟩).2).count 7 ≠ 1 := by
  refine ⟨rfl, rfl, rfl, by decide⟩

/-- Claim C8 (intended semantics): mapping `f` over the tuple generator of
`g1` and `g2` — the composition the n-ary `bind` overload is specified to
denote — pulls each input exactly once per pull and yields `f` applied to
the two pulled values; and, concretely, summing two counters this way
yields `[5, 7, 9]` over three pulls.  (The source's n-ary `bind` body
instead forwards the generators to `braid`, which has no generator-only
overload; see the results for this claim.) -/
theorem bind_tie_zip_semantics {σ τ T U V : Type}
    (f : T → U → V) (g1 : Gen σ T) (g2 : Gen τ U) :
    ((bindTup2 f (tie2 g1 g2)).pull).1 = f (g1.pull).1 (g2.pull).1
    ∧ ((bindTup2 f (tie2 g1 g2)).pull).2.state.state
        = ((g1.pull).2, (g2.pull).2)
    ∧ (bindTup2 (fun a b => a + b)
          (tie2 (countGen 0 1) (countGen 5 1))).pulls 3 = [5, 7, 9] := by
  refine ⟨rfl, rfl, by decide⟩

/-- Claim C9 (evaluation of the shared function-local static tuple cell of
the variadic `pure`): with two generators `pure (1, 2)` and `pure (3, 4)`
of one instantiation, pulling the first initializes the shared static
tuple to `(1, 2)`; the subsequent pull of the second generator then
returns `(1, 2)` — not its own captured `(3, 4)`, which is still intact in
its closure. -/
theorem pure_variadic_shared_static_eval :
    ((PurePair.start ((1 : Int), (2 : Int)) ((3 : Int), (4 : Int))).pull1).1
      = (1, 2)
    ∧ (((PurePair.start ((1 : Int), (2 : Int))
          ((3 : Int), (4 : Int))).pull1).2.pull2).1 = (1, 2)
    ∧ (((PurePair.start ((1 : Int), (2 : Int))
          ((3 : Int), (4 : Int))).pull1).2.pull2).1 ≠ (3, 4)
    ∧ ((((PurePair.start ((1 : Int), (2 : Int))
          ((3 : Int), (4 : Int))).pull1).2.pull2).2).i2 = (3, 4) := by
  refine ⟨rfl, rfl, by decide, rfl⟩

/-- Claim C10: every combinator captures its input generators by value, so
pulls on the composed generator advance only the captured copies: for any
generator `g` and any combinator construction `make`, after any number of
pulls on the built generator the caller's `g` is unchanged and still
produces exactly the sequence it would have produced had the combinator
never been built or pulled.  The concrete conjuncts check this for `tie`,
`seq`, `braid`, `bound` and `bind` over a mutable-state `count (0, 1)`:
after building the combinator and pulling it, the original still produces
`[0, 1, 2]`. -/
theorem combinators_capture_by_value {σ T κ A : Type}
    (g : Gen σ T) (make : Gen σ T → Gen κ A) (n k : Nat) :
    ((CapturedWorld.build g make).pullCombN n).orig = g
    ∧ ((CapturedWorld.build g make).pullCombN n).orig.pulls k = g.pulls k
    ∧ ((CapturedWorld.build (countGen 0 1)
          (fun x => tie2 x x)).pullCombN 2).orig.pulls 3 = [0, 1, 2]
    ∧ ((CapturedWorld.build (countGen 0 1)
          (fun x => seqGen x (pureGen (-1 : Int))
            (fun v => decide (v ≥ 2)))).pullCombN 3).orig.pulls 3
        = [0, 1, 2]
    ∧ ((CapturedWorld.build (countGen 0 1)
          (fun x => braid2 x (pureGen (10 : Int))
            (fun a b => (Alg2.fst (a + b) : Alg2 Int Int)))).pullCombN
          2).orig.pulls 3 = [0, 1, 2]
    ∧ ((CapturedWorld.build (countGen 0 1)
          (fun x => boundGen x 1)).pullCombN 3).orig.pulls 3 = [0, 1, 2]
    ∧ ((CapturedWorld.build (countGen 0 1)
          (bindG (fun v => v * v))).pullCombN 2).orig.pulls 3
        = [0, 1, 2] := by
  refine ⟨pullCombN_orig _ n, ?_, by decide, by decide, by decide,
    by decide, by decide⟩
  rw [pullCombN_orig]
  rfl
